import Mathlib

/-!
Shallow embedding of `src/screen.rs` (the Blightmud terminal screen /
scrollback module) and verification of its specification claims.

Modelling conventions:
* `VecDeque<String>` is modelled by `List String` (front of the deque is the
  head of the list, `push_back` appends at the end, `pop_back` drops the
  last element).
* Machine integers (`u16`, `usize`, `i32`) are modelled by `Nat`/`Int`; the
  single place where the code casts an `i32` to `usize` (`scroll_down`)
  models the cast exactly as a nonnegative remainder modulo `2 ^ 64`.
* Every `write!` to the terminal is modelled as a list of `RenderEvent`s
  returned alongside the new state; the external `termion` escape-sequence
  encoding is out of scope, so color escapes are fixed marker strings.
* The external `textwrap::wrap_iter` algorithm is a parameter
  `wrap : Nat → String → List String` of `print_output`.
* Rust `while` loops are modelled by structurally recursive functions with
  an explicit fuel argument that is large enough for the loop to run to
  completion (each loop strictly decreases the quantity the fuel bounds).
-/

/-- Row where the output region starts (`OUTPUT_START_LINE` in the source). -/
def OUTPUT_START_LINE : Nat := 2

/-- History capacity: the code builds `VecDeque::with_capacity(1024)` and
compares against `self.history.capacity()`, modelled as the constant 1024. -/
def CAPACITY : Nat := 1024

/-- Model of `struct ScrollData(bool, usize)`: `active` is field `.0`
(scrollback mode flag), `start` is field `.1` (window start index). -/
structure ScrollData where
  active : Bool
  start : Nat
  deriving Repr, DecidableEq

/-- One primitive render call sent to the terminal (the RenderSink). -/
inductive RenderEvent where
  | goto (col row : Nat)
  | scrollRegionUp (n : Nat)
  | clearLine
  | write (text : String)
  deriving Repr, DecidableEq

/-- Model of `struct Screen` (the fields the scrollback logic reads):
`width`, `output_line`, `prompt_line`, `history`, `scroll_data`. -/
structure Screen where
  width : Nat
  outputLine : Nat
  promptLine : Nat
  history : List String
  scrollData : ScrollData
  deriving Repr, DecidableEq

/-- `Screen::new`: geometry derived from the terminal size, empty history,
live mode (`ScrollData(false, 0)`). -/
def Screen.new (width height : Nat) : Screen :=
  { width := width
    outputLine := height - 2
    promptLine := height
    history := []
    scrollData := ⟨false, 0⟩ }

/-- The quantity `self.output_line - OUTPUT_START_LINE` used as `output_range`
by `scroll_up` and `scroll_down` (no `+ 1`). -/
def Screen.scrollRange (scr : Screen) : Nat :=
  scr.outputLine - OUTPUT_START_LINE

/-- The quantity `self.output_line - OUTPUT_START_LINE + 1` used as
`output_range` by `draw_scroll` and `reset_scroll`; this is the number of
rows of the output region (the spec's `visible_rows`). -/
def Screen.visibleRows (scr : Screen) : Nat :=
  scr.outputLine - OUTPUT_START_LINE + 1

/-- Char-level model of Rust `line.split("\r\n")`: splits at every
(non-overlapping, leftmost-first) occurrence of CR LF; the accumulator holds
the chars of the current fragment in reverse. Empty input yields `[""]`,
exactly like Rust `str::split`. -/
def splitCRLF : List Char → List Char → List String
  | [], acc => [String.mk acc.reverse]
  | '\r' :: '\n' :: rest, acc => String.mk acc.reverse :: splitCRLF rest []
  | c :: rest, acc => splitCRLF rest (c :: acc)

/-- The fragments produced by `line.split("\r\n")` in `append_to_history`. -/
def splitLines (line : String) : List String :=
  splitCRLF line.data []

/-- One `while self.history.len() >= self.history.capacity()
\x7b self.history.pop_back(); \x7d` loop, with fuel: each iteration drops the
last element, so `l.length` iterations always suffice. -/
def evictGo : List String → Nat → List String
  | l, 0 => l
  | l, fuel + 1 =>
      if CAPACITY ≤ l.length then evictGo l.dropLast fuel else l

/-- The eviction loop of `append_to_history` (pops from the back until the
length is below capacity). -/
def evict (l : List String) : List String :=
  evictGo l l.length

/-- `Screen::append_to_history`: push every `"\r\n"`-separated fragment to the
back, then run the eviction loop. -/
def append_to_history (hist : List String) (line : String) : List String :=
  evict (hist ++ splitLines line)

/-- `Screen::print_prompt`: always appends to history; renders (scroll the
region up one row, write the right-trimmed prompt at the output row, return
the cursor to the prompt row) only when not in scrollback. -/
def Screen.print_prompt (scr : Screen) (prompt : String) : Screen × List RenderEvent :=
  let scr' := { scr with history := append_to_history scr.history prompt }
  if scr'.scrollData.active then (scr', [])
  else
    (scr', [RenderEvent.goto 1 scr'.outputLine, RenderEvent.scrollRegionUp 1,
            RenderEvent.write prompt.trimRight, RenderEvent.goto 1 scr'.promptLine])

/-- `Screen::print_line`: always appends to history; renders (scroll the
region up one row, write the line, return to the prompt row) only when not in
scrollback. -/
def Screen.print_line (scr : Screen) (line : String) : Screen × List RenderEvent :=
  let scr' := { scr with history := append_to_history scr.history line }
  if scr'.scrollData.active then (scr', [])
  else
    (scr', [RenderEvent.goto 1 scr'.outputLine, RenderEvent.scrollRegionUp 1,
            RenderEvent.write line, RenderEvent.goto 1 scr'.promptLine])

/-- `Screen::print_output`: a blank (whitespace-only) line is printed
unwrapped; otherwise each line produced by the external wrap algorithm
(`textwrap::wrap_iter`, the parameter `wrap`) is printed in turn. -/
def Screen.print_output (scr : Screen) (wrap : Nat → String → List String)
    (line : String) : Screen × List RenderEvent :=
  if line.trim.isEmpty then scr.print_line line
  else
    (wrap scr.width line).foldl
      (fun acc l =>
        let r := acc.1.print_line l
        (r.1, acc.2 ++ r.2))
      (scr, [])

/-- Marker string modelling the external `color::Fg(color::LightYellow)`
escape. -/
def FG_LIGHT_YELLOW : String := "\x1B[38;5;11m"

/-- Marker string modelling the external `color::Fg(color::Red)` escape. -/
def FG_RED : String := "\x1B[38;5;1m"

/-- Marker string modelling the external `color::Fg(color::Reset)` escape. -/
def FG_RESET : String := "\x1B[39m"

/-- `Screen::print_send`: `"{lightyellow}> {send}{reset}"` via `print_output`. -/
def Screen.print_send (scr : Screen) (wrap : Nat → String → List String)
    (send : String) : Screen × List RenderEvent :=
  scr.print_output wrap (FG_LIGHT_YELLOW ++ "> " ++ send ++ FG_RESET)

/-- `Screen::print_info`: `"[**] {output}"` via `print_output`. -/
def Screen.print_info (scr : Screen) (wrap : Nat → String → List String)
    (output : String) : Screen × List RenderEvent :=
  scr.print_output wrap ("[**] " ++ output)

/-- `Screen::print_error`: `"{red}[!!] {output}{reset}"` via `print_output`. -/
def Screen.print_error (scr : Screen) (wrap : Nat → String → List String)
    (output : String) : Screen × List RenderEvent :=
  scr.print_output wrap (FG_RED ++ "[!!] " ++ output ++ FG_RESET)

/-- The `while input.len() >= self.width \x7b ... input = last; \x7d` loop of
`print_prompt_input`, at char level, with fuel: each iteration drops `width`
chars from the front, so for `0 < width` the input's length bounds the number
of iterations. (For `width = 0` the Rust loop would not terminate; the model
returns the input unchanged in that degenerate case.) -/
def truncGo (width : Nat) : List Char → Nat → List Char
  | input, 0 => input
  | input, fuel + 1 =>
      if 0 < width ∧ width ≤ input.length then truncGo width (input.drop width) fuel
      else input

/-- The truncation performed by `Screen::print_prompt_input`: repeatedly drop
the first `width` characters while the length is at least `width`. -/
def truncate_input (width : Nat) (input : String) : String :=
  String.mk (truncGo width input.data input.data.length)

/-- `Screen::print_prompt_input`: never touches history; writes the truncated
input at the prompt row after clearing it. -/
def Screen.print_prompt_input (scr : Screen) (input : String) :
    Screen × List RenderEvent :=
  (scr, [RenderEvent.goto 1 scr.promptLine, RenderEvent.clearLine,
         RenderEvent.write (truncate_input scr.width input)])

/-- The direct-addressing redraw loop shared by `draw_scroll` and the first
branch of `reset_scroll`: for each of `rows` rows, go to row
`OUTPUT_START_LINE + i`, clear it, and write `history[start + i]`.
Indexing is modelled totally with `List.getD` (default `""`); claim C10
proves the indices are in bounds in every reachable state, which is where the
Rust `self.history[index]` panics would otherwise live. -/
def windowEvents (hist : List String) (start rows : Nat) : List RenderEvent :=
  (List.range rows).flatMap fun i =>
    [RenderEvent.goto 1 (OUTPUT_START_LINE + i), RenderEvent.clearLine,
     RenderEvent.write (hist.getD (start + i) "")]

/-- `Screen::draw_scroll`: window redraw of `visibleRows` rows starting at
`scroll_data.1`. -/
def Screen.draw_scroll (scr : Screen) : List RenderEvent :=
  windowEvents scr.history scr.scrollData.start scr.visibleRows

/-- `Screen::reset_scroll`: clear the scrollback flag; if
`history.len() - visibleRows ≥ 0` (as `i32`), window-redraw the tail,
otherwise replay every history line with the scroll-up-one-row primitive. -/
def Screen.reset_scroll (scr : Screen) : Screen × List RenderEvent :=
  let scr' := { scr with scrollData := ⟨false, scr.scrollData.start⟩ }
  let startIdx : Int := (scr.history.length : Int) - (scr.visibleRows : Int)
  if 0 ≤ startIdx then
    (scr', windowEvents scr.history startIdx.toNat scr.visibleRows)
  else
    (scr', scr.history.flatMap fun line =>
      [RenderEvent.goto 1 scr.outputLine, RenderEvent.scrollRegionUp 1,
       RenderEvent.write line])

/-- `Screen::scroll_up`: only acts when `history.len() > output_range`
(where `output_range = output_line - OUTPUT_START_LINE`); on entry from live
mode the window start is seeded with `len - output_range`; in all cases it is
then decreased by `min start 5` (the code's `s -= s.min(5)`), and the window
is redrawn. -/
def Screen.scroll_up (scr : Screen) : Screen × List RenderEvent :=
  if scr.scrollRange < scr.history.length then
    let s0 := if scr.scrollData.active then scr.scrollData.start
              else scr.history.length - scr.scrollRange
    let s1 := s0 - min s0 5
    let scr' := { scr with scrollData := ⟨true, s1⟩ }
    (scr', scr'.draw_scroll)
  else (scr, [])

/-- `Screen::scroll_down`: only acts in scrollback. `max_start_index` is the
`i32` value `history.len() - output_range`, cast to `usize` (modelled as the
nonnegative remainder modulo `2 ^ 64`); if `start + 5` reaches it the screen
leaves scrollback via `reset_scroll`, otherwise the window start advances by
5 and the window is redrawn. -/
def Screen.scroll_down (scr : Screen) : Screen × List RenderEvent :=
  if scr.scrollData.active then
    let maxStart : Int := (scr.history.length : Int) - (scr.scrollRange : Int)
    let maxStartUsize : Nat := (maxStart % (2 ^ 64)).toNat
    let newStart := scr.scrollData.start + 5
    if maxStartUsize ≤ newStart then scr.reset_scroll
    else
      let scr' := { scr with scrollData := ⟨true, newStart⟩ }
      (scr', scr'.draw_scroll)
  else (scr, [])

/-- State part of `scroll_up` (for iterating the operation). -/
def Screen.upS (scr : Screen) : Screen := scr.scroll_up.1

/-- State part of `scroll_down` (for iterating the operation). -/
def Screen.downS (scr : Screen) : Screen := scr.scroll_down.1

/-- The write calls contained in a list of render events. -/
def writesOf : List RenderEvent → List String
  | [] => []
  | RenderEvent.write s :: es => s :: writesOf es
  | _ :: es => writesOf es

/-- States of the screen reachable from `Screen::new` (on a terminal of
height at least 4, so that the geometry invariant
`output_top ≤ output_bottom < prompt_row` of the spec holds) by the public
print and scroll operations. -/
inductive Reachable : Screen → Prop where
  | init (w h : Nat) (hh : 4 ≤ h) : Reachable (Screen.new w h)
  | output {scr : Screen} (wrap : Nat → String → List String) (line : String) :
      Reachable scr → Reachable (scr.print_output wrap line).1
  | prompt {scr : Screen} (line : String) :
      Reachable scr → Reachable (scr.print_prompt line).1
  | send {scr : Screen} (wrap : Nat → String → List String) (line : String) :
      Reachable scr → Reachable (scr.print_send wrap line).1
  | info {scr : Screen} (wrap : Nat → String → List String) (line : String) :
      Reachable scr → Reachable (scr.print_info wrap line).1
  | error {scr : Screen} (wrap : Nat → String → List String) (line : String) :
      Reachable scr → Reachable (scr.print_error wrap line).1
  | prompt_input {scr : Screen} (line : String) :
      Reachable scr → Reachable (scr.print_prompt_input line).1
  | up {scr : Screen} : Reachable scr → Reachable scr.scroll_up.1
  | down {scr : Screen} : Reachable scr → Reachable scr.scroll_down.1

/-- The controller invariant: the history length is below capacity, and in
scrollback mode the whole drawn window `start + visibleRows` fits inside the
history. -/
def ScreenInv (scr : Screen) : Prop :=
  scr.history.length ≤ CAPACITY - 1 ∧
  (scr.scrollData.active = true →
    scr.scrollData.start + scr.visibleRows ≤ scr.history.length)

/-! ### The eviction loop pops from the back: characterization as `take` -/

lemma evictGo_eq_take :
    ∀ (fuel : Nat) (l : List String), l.length ≤ fuel + (CAPACITY - 1) →
      evictGo l fuel = l.take (min l.length (CAPACITY - 1)) := by
  intro fuel
  induction fuel with
  | zero =>
      intro l h
      have hlen : l.length ≤ CAPACITY - 1 := by simpa using h
      have hmin : min l.length (CAPACITY - 1) = l.length := by omega
      have hlt : ¬ CAPACITY ≤ l.length := by simp [CAPACITY] at *; omega
      simp [evictGo, hmin]
  | succ fuel ih =>
      intro l h
      by_cases hc : CAPACITY ≤ l.length
      · rw [evictGo, if_pos hc]
        rw [ih l.dropLast (by simp only [List.length_dropLast]; omega)]
        rw [List.length_dropLast, List.dropLast_eq_take, List.take_take]
        congr 1
        simp only [CAPACITY] at hc ⊢
        omega
      · rw [evictGo, if_neg hc]
        have hmin : min l.length (CAPACITY - 1) = l.length := by
          simp only [CAPACITY] at hc ⊢
          omega
        rw [hmin, List.take_length]

lemma evict_eq_take (l : List String) :
    evict l = l.take (min l.length (CAPACITY - 1)) :=
  evictGo_eq_take l.length l (by omega)

lemma evict_eq_of_lt {l : List String} (h : l.length < CAPACITY) : evict l = l := by
  rw [evict_eq_take]
  have hmin : min l.length (CAPACITY - 1) = l.length := by omega
  rw [hmin, List.take_length]

lemma evict_length (l : List String) :
    (evict l).length = min l.length (CAPACITY - 1) := by
  rw [evict_eq_take]
  simp

lemma append_to_history_length (hist : List String) (line : String) :
    (append_to_history hist line).length
      = min (hist.length + (splitLines line).length) (CAPACITY - 1) := by
  rw [append_to_history, evict_length]
  simp

lemma append_to_history_length_le (hist : List String) (line : String) :
    (append_to_history hist line).length ≤ CAPACITY - 1 := by
  rw [append_to_history_length]
  omega

lemma append_to_history_length_ge (hist : List String) (line : String)
    (h : hist.length ≤ CAPACITY - 1) :
    hist.length ≤ (append_to_history hist line).length := by
  rw [append_to_history_length]
  omega

lemma append_to_history_of_lt (hist : List String) (line : String)
    (h : hist.length + (splitLines line).length < CAPACITY) :
    append_to_history hist line = hist ++ splitLines line := by
  rw [append_to_history, evict_eq_of_lt (by simpa using h)]

/-! ### Projection lemmas for the print operations -/

lemma print_prompt_fst (scr : Screen) (p : String) :
    (scr.print_prompt p).1
      = { scr with history := append_to_history scr.history p } := by
  simp only [Screen.print_prompt]
  split <;> rfl

lemma print_line_fst (scr : Screen) (l : String) :
    (scr.print_line l).1
      = { scr with history := append_to_history scr.history l } := by
  simp only [Screen.print_line]
  split <;> rfl

lemma foldl_print_line_fst (pieces : List String) (scr : Screen)
    (evs : List RenderEvent) :
    (pieces.foldl (fun acc l => let r := acc.1.print_line l; (r.1, acc.2 ++ r.2))
        (scr, evs)).1
      = pieces.foldl (fun s l => (s.print_line l).1) scr := by
  induction pieces generalizing scr evs with
  | nil => rfl
  | cons p ps ih =>
      simp only [List.foldl_cons]
      exact ih _ _

lemma print_output_fst (scr : Screen) (wrap : Nat → String → List String)
    (line : String) :
    (scr.print_output wrap line).1
      = if line.trim.isEmpty then (scr.print_line line).1
        else (wrap scr.width line).foldl (fun s l => (s.print_line l).1) scr := by
  rw [Screen.print_output]
  split
  · rfl
  · exact foldl_print_line_fst _ _ _

/-! ### The invariant is preserved by every operation -/

lemma screenInv_history_update {scr : Screen} (h : ScreenInv scr) (line : String) :
    ScreenInv { scr with history := append_to_history scr.history line } := by
  obtain ⟨h1, h2⟩ := h
  constructor
  · exact append_to_history_length_le _ _
  · intro ha
    have hge := append_to_history_length_ge scr.history line h1
    have hb := h2 ha
    simp only [Screen.visibleRows] at *
    omega

lemma screenInv_print_line {scr : Screen} (h : ScreenInv scr) (l : String) :
    ScreenInv (scr.print_line l).1 := by
  rw [print_line_fst]
  exact screenInv_history_update h l

lemma screenInv_print_prompt {scr : Screen} (h : ScreenInv scr) (l : String) :
    ScreenInv (scr.print_prompt l).1 := by
  rw [print_prompt_fst]
  exact screenInv_history_update h l

lemma screenInv_foldl_print_line {pieces : List String} {scr : Screen}
    (h : ScreenInv scr) :
    ScreenInv (pieces.foldl (fun s l => (s.print_line l).1) scr) := by
  induction pieces generalizing scr with
  | nil => exact h
  | cons p ps ih =>
      simp only [List.foldl_cons]
      exact ih (screenInv_print_line h p)

lemma screenInv_print_output {scr : Screen} (h : ScreenInv scr)
    (wrap : Nat → String → List String) (line : String) :
    ScreenInv (scr.print_output wrap line).1 := by
  rw [print_output_fst]
  split
  · exact screenInv_print_line h line
  · exact screenInv_foldl_print_line h

/-! ### Case lemmas for the scroll operations -/

lemma scroll_up_not_triggered {scr : Screen}
    (h : scr.history.length ≤ scr.scrollRange) :
    scr.scroll_up = (scr, []) := by
  rw [Screen.scroll_up, if_neg (by omega)]

lemma draw_scroll_update (scr : Screen) (sd : ScrollData) :
    ({ scr with scrollData := sd } : Screen).draw_scroll
      = windowEvents scr.history sd.start scr.visibleRows := by
  rfl

lemma scroll_up_from_live {scr : Screen} (hl : scr.scrollData.active = false)
    (hr : scr.scrollRange < scr.history.length) :
    scr.scroll_up
      = ({ scr with scrollData := ⟨true,
            scr.history.length - scr.scrollRange
              - min (scr.history.length - scr.scrollRange) 5⟩ },
         windowEvents scr.history
           (scr.history.length - scr.scrollRange
             - min (scr.history.length - scr.scrollRange) 5)
           scr.visibleRows) := by
  rw [Screen.scroll_up, if_pos hr]
  simp only [hl, Bool.false_eq_true, if_false, draw_scroll_update]

lemma scroll_up_in_scrollback {scr : Screen} (ha : scr.scrollData.active = true)
    (hr : scr.scrollRange < scr.history.length) :
    scr.scroll_up
      = ({ scr with scrollData := ⟨true,
            scr.scrollData.start - min scr.scrollData.start 5⟩ },
         windowEvents scr.history
           (scr.scrollData.start - min scr.scrollData.start 5)
           scr.visibleRows) := by
  rw [Screen.scroll_up, if_pos hr]
  simp only [ha, if_true, draw_scroll_update]

lemma scroll_down_in_live {scr : Screen} (h : scr.scrollData.active = false) :
    scr.scroll_down = (scr, []) := by
  rw [Screen.scroll_down]
  simp only [h, Bool.false_eq_true, if_false]

lemma toNat_emod_pow_sub {a b : Nat} (hba : b < a) (ha : a < 2 ^ 64) :
    ((((a : Int) - (b : Int)) % (2 ^ 64)).toNat = a - b) := by
  have h1 : (a : Int) - (b : Int) = ((a - b : Nat) : Int) := by omega
  have h2 : ((a - b : Nat) : Int) < 2 ^ 64 := by
    have hab : a - b < 2 ^ 64 := by omega
    exact_mod_cast hab
  rw [h1, Int.emod_eq_of_lt (Int.natCast_nonneg _) h2]
  simp

lemma reset_scroll_tail {scr : Screen}
    (h : scr.visibleRows ≤ scr.history.length) :
    scr.reset_scroll
      = ({ scr with scrollData := ⟨false, scr.scrollData.start⟩ },
         windowEvents scr.history
           (scr.history.length - scr.visibleRows) scr.visibleRows) := by
  rw [Screen.reset_scroll]
  have h0 : (0 : Int) ≤ (scr.history.length : Int) - (scr.visibleRows : Int) := by
    omega
  simp only [if_pos h0]
  rw [Int.toNat_sub]

lemma scroll_down_to_live {scr : Screen} (ha : scr.scrollData.active = true)
    (hr : scr.scrollRange < scr.history.length)
    (hcap : scr.history.length < 2 ^ 64)
    (hc : scr.history.length - scr.scrollRange ≤ scr.scrollData.start + 5) :
    scr.scroll_down = scr.reset_scroll := by
  rw [Screen.scroll_down]
  simp only [ha, if_true, toNat_emod_pow_sub hr hcap]
  rw [if_pos hc]

lemma scroll_down_stay {scr : Screen} (ha : scr.scrollData.active = true)
    (hr : scr.scrollRange < scr.history.length)
    (hcap : scr.history.length < 2 ^ 64)
    (hc : scr.scrollData.start + 5 < scr.history.length - scr.scrollRange) :
    scr.scroll_down
      = ({ scr with scrollData := ⟨true, scr.scrollData.start + 5⟩ },
         windowEvents scr.history (scr.scrollData.start + 5) scr.visibleRows) := by
  rw [Screen.scroll_down]
  simp only [ha, if_true, toNat_emod_pow_sub hr hcap, draw_scroll_update]
  have hne : ¬ (scr.history.length - scr.scrollRange ≤ scr.scrollData.start + 5) := by
    omega
  rw [if_neg hne]

/-! ### Invariant preservation by the scroll operations -/

lemma screenInv_scroll_up {scr : Screen} (h : ScreenInv scr) :
    ScreenInv scr.scroll_up.1 := by
  obtain ⟨h1, h2⟩ := h
  by_cases hr : scr.scrollRange < scr.history.length
  · cases hact : scr.scrollData.active with
    | false =>
        rw [scroll_up_from_live hact hr]
        refine ⟨h1, fun _ => ?_⟩
        simp only [Screen.visibleRows, Screen.scrollRange] at *
        omega
    | true =>
        rw [scroll_up_in_scrollback hact hr]
        have hb := h2 hact
        refine ⟨h1, fun _ => ?_⟩
        simp only [Screen.visibleRows, Screen.scrollRange] at *
        omega
  · rw [scroll_up_not_triggered (by omega)]
    exact ⟨h1, h2⟩

lemma screenInv_scroll_down {scr : Screen} (h : ScreenInv scr) :
    ScreenInv scr.scroll_down.1 := by
  obtain ⟨h1, h2⟩ := h
  cases hact : scr.scrollData.active with
  | false =>
      rw [scroll_down_in_live hact]
      exact ⟨h1, h2⟩
  | true =>
      have hb := h2 hact
      have hr : scr.scrollRange < scr.history.length := by
        simp only [Screen.visibleRows, Screen.scrollRange] at *
        omega
      have hcap : scr.history.length < 2 ^ 64 := by
        have : (CAPACITY - 1 : Nat) < 2 ^ 64 := by norm_num [CAPACITY]
        omega
      have hVle : scr.visibleRows ≤ scr.history.length := by omega
      by_cases hc : scr.history.length - scr.scrollRange ≤ scr.scrollData.start + 5
      · rw [scroll_down_to_live hact hr hcap hc, reset_scroll_tail hVle]
        refine ⟨h1, fun hx => ?_⟩
        simp at hx
      · rw [scroll_down_stay hact hr hcap (by omega)]
        refine ⟨h1, fun _ => ?_⟩
        simp only [Screen.visibleRows, Screen.scrollRange] at *
        omega

/-! ### Every reachable state satisfies the invariant -/

lemma screenInv_new (w h : Nat) : ScreenInv (Screen.new w h) := by
  constructor
  · simp [Screen.new, CAPACITY]
  · intro hx
    simp [Screen.new] at hx

lemma reachable_inv {scr : Screen} (h : Reachable scr) : ScreenInv scr := by
  induction h with
  | init w h hh => exact screenInv_new w h
  | output wrap line _ ih => exact screenInv_print_output ih wrap line
  | prompt line _ ih => exact screenInv_print_prompt ih line
  | send wrap line _ ih => exact screenInv_print_output ih wrap _
  | info wrap line _ ih => exact screenInv_print_output ih wrap _
  | error wrap line _ ih => exact screenInv_print_output ih wrap _
  | prompt_input line _ ih => exact ih
  | up _ ih => exact screenInv_scroll_up ih
  | down _ ih => exact screenInv_scroll_down ih

/-! ### The write calls of a window redraw are exactly the drawn slice -/

lemma writesOf_append (a b : List RenderEvent) :
    writesOf (a ++ b) = writesOf a ++ writesOf b := by
  induction a with
  | nil => rfl
  | cons e es ih => cases e <;> simp [writesOf, ih]

lemma windowEvents_succ (hist : List String) (start rows : Nat) :
    windowEvents hist start (rows + 1)
      = windowEvents hist start rows
        ++ [RenderEvent.goto 1 (OUTPUT_START_LINE + rows), RenderEvent.clearLine,
            RenderEvent.write (hist.getD (start + rows) "")] := by
  rw [windowEvents, windowEvents, List.range_succ, List.flatMap_append]
  simp

lemma writesOf_windowEvents (hist : List String) (start rows : Nat) :
    writesOf (windowEvents hist start rows)
      = (List.range rows).map (fun i => hist.getD (start + i) "") := by
  induction rows with
  | zero => rfl
  | succ n ih =>
      rw [windowEvents_succ, writesOf_append, ih, List.range_succ, List.map_append]
      simp [writesOf]

lemma range_map_getD_eq_drop :
    ∀ (n : Nat) (l : List String) (s : Nat), l.length = s + n →
      (List.range n).map (fun i => l.getD (s + i) "") = l.drop s := by
  intro n
  induction n with
  | zero =>
      intro l s h
      rw [List.range_zero, List.map_nil, List.drop_eq_nil_of_le (by omega)]
  | succ n ih =>
      intro l s h
      have hs : s < l.length := by omega
      rw [List.range_succ_eq_map, List.map_cons, List.map_map,
        List.drop_eq_getElem_cons hs]
      congr 1
      · simpa using List.getD_eq_getElem l "" hs
      · have hrec := ih l (s + 1) (by omega)
        rw [← hrec]
        apply List.map_congr_left
        intro i _
        show l.getD (s + (i + 1)) "" = l.getD (s + 1 + i) ""
        have harith : s + (i + 1) = s + 1 + i := by omega
        rw [harith]

/-- The tail window redraw writes exactly the last `visibleRows` lines of
history, in order. -/
lemma writesOf_tail_window (hist : List String) (rows : Nat)
    (h : rows ≤ hist.length) :
    writesOf (windowEvents hist (hist.length - rows) rows)
      = hist.drop (hist.length - rows) := by
  rw [writesOf_windowEvents]
  exact range_map_getD_eq_drop rows hist (hist.length - rows) (by omega)

/-! ### Iterating the scroll operations -/

lemma up_iterate_to_zero :
    ∀ (n : Nat) (scr : Screen), scr.scrollData = ⟨true, n⟩ →
      scr.scrollRange < scr.history.length →
      ∃ k, Screen.upS^[k] scr = { scr with scrollData := ⟨true, 0⟩ } := by
  intro n
  induction n using Nat.strong_induction_on with
  | _ n ih =>
      intro scr hsd hr
      by_cases h0 : n = 0
      · refine ⟨0, ?_⟩
        rw [Function.iterate_zero_apply]
        subst h0
        cases scr
        dsimp only at hsd ⊢
        rw [hsd]
      · have hact : scr.scrollData.active = true := by rw [hsd]
        have hstart : scr.scrollData.start = n := by rw [hsd]
        have hstep : Screen.upS scr
            = { scr with scrollData := ⟨true, n - min n 5⟩ } := by
          rw [Screen.upS, scroll_up_in_scrollback hact hr, hstart]
        have hlt : n - min n 5 < n := by omega
        obtain ⟨k, hk⟩ := ih (n - min n 5) hlt
          { scr with scrollData := ⟨true, n - min n 5⟩ } rfl hr
        refine ⟨k + 1, ?_⟩
        rw [Function.iterate_succ_apply, hstep, hk]

lemma down_iterate_to_live :
    ∀ (d : Nat) (scr : Screen), scr.scrollData.active = true →
      scr.scrollRange < scr.history.length →
      scr.history.length < 2 ^ 64 →
      d = scr.history.length - scr.scrollRange - scr.scrollData.start →
      ∃ m, (Screen.downS^[m] scr).scroll_down.1.scrollData.active = false ∧
        (Screen.downS^[m] scr).scroll_down.1.history = scr.history ∧
        (Screen.downS^[m] scr).scroll_down.2
          = windowEvents scr.history
              (scr.history.length - scr.visibleRows) scr.visibleRows := by
  intro d
  induction d using Nat.strong_induction_on with
  | _ d ih =>
      intro scr hact hr hcap hd
      have hVle : scr.visibleRows ≤ scr.history.length := by
        simp only [Screen.visibleRows, Screen.scrollRange] at *
        omega
      by_cases hc : scr.history.length - scr.scrollRange ≤ scr.scrollData.start + 5
      · refine ⟨0, ?_, ?_, ?_⟩ <;>
          rw [Function.iterate_zero_apply,
            scroll_down_to_live hact hr hcap hc, reset_scroll_tail hVle]
      · have hstep : Screen.downS scr
            = { scr with scrollData := ⟨true, scr.scrollData.start + 5⟩ } := by
          rw [Screen.downS, scroll_down_stay hact hr hcap (by omega)]
        obtain ⟨m, hm1, hm2, hm3⟩ := ih (d - 5) (by omega)
          { scr with scrollData := ⟨true, scr.scrollData.start + 5⟩ } rfl hr hcap
          (by
            show d - 5
              = scr.history.length - scr.scrollRange - (scr.scrollData.start + 5)
            omega)
        refine ⟨m + 1, ?_, ?_, ?_⟩ <;> rw [Function.iterate_succ_apply, hstep]
        · exact hm1
        · exact hm2
        · exact hm3

/-! ### Claim C1 -/

/-- C1 (evidence for the code bug): at capacity the eviction loop of
`append_to_history` pops from the back — the end just pushed to — so
appending `"new"` to a history holding 1023 copies of `"old"` leaves the
history unchanged: the line just appended is discarded and the 1023 oldest
entries survive. This contradicts the claim that each capacity eviction
removes the oldest entry, never the entry just appended. -/
theorem c1_eviction_drops_appended_line :
    append_to_history (List.replicate (CAPACITY - 1) "old") "new"
      = List.replicate (CAPACITY - 1) "old" := by
  have hsplit : splitLines "new" = ["new"] := rfl
  rw [append_to_history, hsplit, evict_eq_take]
  have hlen : (List.replicate (CAPACITY - 1) "old" ++ ["new"]).length
      = CAPACITY := by
    rw [List.length_append, List.length_replicate]
    norm_num [CAPACITY]
  rw [hlen]
  have hmin : min CAPACITY (CAPACITY - 1) = CAPACITY - 1 := by
    norm_num [CAPACITY]
  rw [hmin]
  exact List.take_left' (by rw [List.length_replicate])

/-! ### Claim C2 -/

/-- C2: after any sequence of print operations
(`print_output`/`print_prompt`/`print_send`/`print_info`/`print_error`) and
scroll commands, the history length never exceeds the capacity C = 1024. -/
theorem c2_capacity_invariant {scr : Screen} (h : Reachable scr) :
    scr.history.length ≤ CAPACITY := by
  have h1 := (reachable_inv h).1
  omega

/-- Witness for C2: the capacity bound at a concrete reachable state. -/
theorem c2_capacity_invariant_witness :
    (((Screen.new 80 24).print_prompt "hello").1).history.length ≤ CAPACITY :=
  c2_capacity_invariant
    (Reachable.prompt "hello" (Reachable.init 80 24 (by decide)))

/-! ### Claim C6 -/

/-- C6: in every reachable state in Scrollback the window start `s` satisfies
`0 ≤ s` (trivially, as a natural number) and `s ≤ len(history) − visible_rows`
— stated additively as `s + visibleRows ≤ len(history)`, which also forces
`visible_rows ≤ len(history)`. Every operation preserves the bound because
all reachable states satisfy it. -/
theorem c6_scrollback_bound {scr : Screen} (h : Reachable scr)
    (ha : scr.scrollData.active = true) :
    scr.scrollData.start + scr.visibleRows ≤ scr.history.length :=
  (reachable_inv h).2 ha

/-- Witness for C6: the bound at a concrete reachable scrollback state. -/
theorem c6_scrollback_bound_witness :
    ((((Screen.new 80 4).print_prompt "a").1).scroll_up.1).scrollData.start
        + ((((Screen.new 80 4).print_prompt "a").1).scroll_up.1).visibleRows
      ≤ ((((Screen.new 80 4).print_prompt "a").1).scroll_up.1).history.length :=
  c6_scrollback_bound
    (Reachable.up (Reachable.prompt "a" (Reachable.init 80 4 (by decide))))
    (by decide)

/-! ### Claim C10 -/

/-- C10: in every reachable state, the indices used by the window redraw
(`scroll_data.1 + i` for each of the `visibleRows` rows drawn by
`draw_scroll`, whenever the controller is in scrollback) and by the tail
redraw (`output_start_index + i` in `reset_scroll`'s direct-addressing
branch, which runs exactly when `visibleRows ≤ len`) are strictly below the
history length, so the direct indexing never goes out of bounds. -/
theorem c10_redraw_indices_in_bounds {scr : Screen} (h : Reachable scr) :
    (scr.scrollData.active = true →
      ∀ i < scr.visibleRows,
        scr.scrollData.start + i < scr.history.length) ∧
    (scr.visibleRows ≤ scr.history.length →
      ∀ i < scr.visibleRows,
        scr.history.length - scr.visibleRows + i < scr.history.length) := by
  obtain ⟨h1, h2⟩ := reachable_inv h
  constructor
  · intro ha i hi
    have hb := h2 ha
    omega
  · intro hv i hi
    omega

/-- Witness for C10 at a concrete reachable scrollback state. -/
theorem c10_redraw_indices_in_bounds_witness :
    (((((Screen.new 80 5).print_prompt "a\r\nb").1).scroll_up.1).scrollData.active = true →
      ∀ i < ((((Screen.new 80 5).print_prompt "a\r\nb").1).scroll_up.1).visibleRows,
        ((((Screen.new 80 5).print_prompt "a\r\nb").1).scroll_up.1).scrollData.start + i
          < ((((Screen.new 80 5).print_prompt "a\r\nb").1).scroll_up.1).history.length) ∧
    (((((Screen.new 80 5).print_prompt "a\r\nb").1).scroll_up.1).visibleRows
        ≤ ((((Screen.new 80 5).print_prompt "a\r\nb").1).scroll_up.1).history.length →
      ∀ i < ((((Screen.new 80 5).print_prompt "a\r\nb").1).scroll_up.1).visibleRows,
        ((((Screen.new 80 5).print_prompt "a\r\nb").1).scroll_up.1).history.length
            - ((((Screen.new 80 5).print_prompt "a\r\nb").1).scroll_up.1).visibleRows + i
          < ((((Screen.new 80 5).print_prompt "a\r\nb").1).scroll_up.1).history.length) :=
  c10_redraw_indices_in_bounds
    (Reachable.up (Reachable.prompt "a\r\nb" (Reachable.init 80 5 (by decide))))

/-! ### Claim C3 -/

/-- Concrete Live screen for claim C3: `output_line = 12`, so
`visible_rows = 11` and the code's `output_range = 10`; 20 lines of
history. -/
def scrC3 : Screen :=
  { width := 80, outputLine := 12, promptLine := 14,
    history := List.replicate 20 "line", scrollData := ⟨false, 0⟩ }

/-- C3 counterexample: in Live with `len(history) = 20 > visible_rows = 11`,
`scroll_up` sets the window start to `20 − 10 − 5 = 5` (the code seeds with
`len − output_range` where `output_range = visible_rows − 1 = 10`), whereas
the claimed `window_start = len − visible_rows` followed by subtracting up
to 5 would give `9 − 5 = 4`. -/
theorem c3_counterexample :
    scrC3.scrollData.active = false ∧
    scrC3.visibleRows < scrC3.history.length ∧
    scrC3.scroll_up.1.scrollData.start = 5 ∧
    scrC3.history.length - scrC3.visibleRows
      - min (scrC3.history.length - scrC3.visibleRows) 5 = 4 ∧
    scrC3.scroll_up.1.scrollData.start
      ≠ scrC3.history.length - scrC3.visibleRows
        - min (scrC3.history.length - scrC3.visibleRows) 5 := by
  decide

/-- C3 (amended): when `scroll_up` is invoked in Live state with
`len(history) > visible_rows − 1` (the code's
`output_range = output_bottom − output_top`, one less than the claim's
`visible_rows`), the controller enters Scrollback with
`window_start = len(history) − (visible_rows − 1)`, then subtracts up to 5
with a floor of 0, leaves the history unchanged, and redraws the output
region by direct addressing. -/
theorem c3_scroll_up_live_amended {scr : Screen}
    (hl : scr.scrollData.active = false)
    (hr : scr.scrollRange < scr.history.length) :
    scr.scroll_up.1.scrollData
      = ⟨true, scr.history.length - scr.scrollRange
          - min (scr.history.length - scr.scrollRange) 5⟩ ∧
    scr.scroll_up.1.history = scr.history ∧
    scr.scroll_up.2
      = windowEvents scr.history
          (scr.history.length - scr.scrollRange
            - min (scr.history.length - scr.scrollRange) 5)
          scr.visibleRows := by
  rw [scroll_up_from_live hl hr]
  exact ⟨rfl, rfl, rfl⟩

/-- Witness for C3 (amended) at the concrete screen `scrC3`. -/
theorem c3_scroll_up_live_amended_witness :
    scrC3.scroll_up.1.scrollData
      = ⟨true, scrC3.history.length - scrC3.scrollRange
          - min (scrC3.history.length - scrC3.scrollRange) 5⟩ ∧
    scrC3.scroll_up.1.history = scrC3.history ∧
    scrC3.scroll_up.2
      = windowEvents scrC3.history
          (scrC3.history.length - scrC3.scrollRange
            - min (scrC3.history.length - scrC3.scrollRange) 5)
          scrC3.visibleRows :=
  c3_scroll_up_live_amended (by decide) (by decide)

/-! ### Claim C4 -/

/-- Concrete Live screen for the C4 counterexample: `visible_rows = 11` and
exactly 11 lines of history, so the claim's precondition
`len(history) ≤ visible_rows` holds. -/
def scrC4 : Screen :=
  { width := 80, outputLine := 12, promptLine := 14,
    history := List.replicate 11 "line", scrollData := ⟨false, 0⟩ }

/-- C4 counterexample: with `len(history) = visible_rows = 11`, `scroll_up`
is not a no-op — it enters scrollback and emits render events — because the
code's guard is `len > output_range` with
`output_range = visible_rows − 1 = 10`. -/
theorem c4_counterexample :
    scrC4.scrollData.active = false ∧
    scrC4.history.length ≤ scrC4.visibleRows ∧
    scrC4.scroll_up.1.scrollData.active = true ∧
    scrC4.scroll_up.2 ≠ [] := by
  decide

/-- C4 (amended): `scroll_down` invoked in Live is a complete no-op (state
unchanged, no render events, no error), and `scroll_up` is a complete no-op
exactly when `len(history) ≤ visible_rows − 1` (the code's `output_range`),
i.e. when `len(history) < visible_rows` — not when `len = visible_rows`. -/
theorem c4_noops_amended {scr : Screen} :
    (scr.scrollData.active = false → scr.scroll_down = (scr, [])) ∧
    (scr.history.length ≤ scr.scrollRange → scr.scroll_up = (scr, [])) :=
  ⟨fun h => scroll_down_in_live h, fun h => scroll_up_not_triggered h⟩

/-- Concrete Live screen with little history for the C4 witness. -/
def scrC4w : Screen :=
  { width := 80, outputLine := 12, promptLine := 14,
    history := List.replicate 3 "line", scrollData := ⟨false, 0⟩ }

/-- Witness for C4 (amended): both no-ops at a concrete screen. -/
theorem c4_noops_amended_witness :
    scrC4w.scroll_down = (scrC4w, []) ∧ scrC4w.scroll_up = (scrC4w, []) :=
  ⟨(@c4_noops_amended scrC4w).1 (by decide),
   (@c4_noops_amended scrC4w).2 (by decide)⟩

/-! ### Claim C5 -/

/-- Concrete Live screen for the C5 scenario: `output_line = 11`, so
`visible_rows = 10` exactly as in the claim's Scenario B; 20 lines of
history. -/
def scrC5 : Screen :=
  { width := 80, outputLine := 11, promptLine := 13,
    history := List.replicate 20 "line", scrollData := ⟨false, 0⟩ }

/-- The same screen already in `Scrollback(5)`, the position from which the
claim's scenario predicts `scroll_down` (candidate 10 ≥ max_start 10)
transitions to Live. -/
def scrC5b : Screen :=
  { width := 80, outputLine := 11, promptLine := 13,
    history := List.replicate 20 "line", scrollData := ⟨true, 5⟩ }

/-- C5 counterexample: with `visible_rows = 10` and 20 lines of history the
first `scroll_up` yields `Scrollback(6)` — not the claimed `Scrollback(10)`
— because the code seeds with `len − (visible_rows − 1) = 11` and subtracts
5 already on entry; and from `Scrollback(5)` a `scroll_down` stays in
scrollback at `Scrollback(10)` — not the claimed transition to Live —
because the code's `max_start` is `len − (visible_rows − 1) = 11`, so
candidate `10 < 11`. -/
theorem c5_counterexample :
    scrC5.visibleRows = 10 ∧
    scrC5.history.length = 20 ∧
    scrC5.scrollData.active = false ∧
    scrC5.scroll_up.1.scrollData = ⟨true, 6⟩ ∧
    scrC5.scroll_up.1.scrollData ≠ ⟨true, 10⟩ ∧
    scrC5b.scroll_down.1.scrollData = ⟨true, 10⟩ ∧
    scrC5b.scroll_down.1.scrollData.active ≠ false := by
  decide

/-- C5 (amended): for every Scrollback state (under the invariant-justified
side conditions `output_range < len` and `len < 2^64`), `scroll_down`
computes `max_start = len − output_range` with
`output_range = visible_rows − 1`, and `candidate = window_start + 5`; if
`candidate ≥ max_start` it transitions to Live and performs a tail redraw,
otherwise it sets `window_start = candidate` and redraws by direct
addressing. In the concrete scenario with `visible_rows = 10` and 20 lines,
`scroll_up` yields `Scrollback(6)`, a second `scroll_up` yields
`Scrollback(1)`, and `scroll_down` from `Scrollback(6)` (candidate 11 ≥
max_start 11) transitions to Live. -/
theorem c5_scroll_down_amended {scr : Screen}
    (ha : scr.scrollData.active = true)
    (hr : scr.scrollRange < scr.history.length)
    (hcap : scr.history.length < 2 ^ 64) :
    (scr.history.length - scr.scrollRange ≤ scr.scrollData.start + 5 →
      scr.scroll_down.1
          = { scr with scrollData := ⟨false, scr.scrollData.start⟩ } ∧
      scr.scroll_down.2
          = windowEvents scr.history
              (scr.history.length - scr.visibleRows) scr.visibleRows) ∧
    (scr.scrollData.start + 5 < scr.history.length - scr.scrollRange →
      scr.scroll_down.1
          = { scr with scrollData := ⟨true, scr.scrollData.start + 5⟩ } ∧
      scr.scroll_down.2
          = windowEvents scr.history (scr.scrollData.start + 5)
              scr.visibleRows) := by
  constructor
  · intro hc
    have hVle : scr.visibleRows ≤ scr.history.length := by
      simp only [Screen.visibleRows, Screen.scrollRange] at *
      omega
    rw [scroll_down_to_live ha hr hcap hc, reset_scroll_tail hVle]
    exact ⟨rfl, rfl⟩
  · intro hc
    rw [scroll_down_stay ha hr hcap hc]
    exact ⟨rfl, rfl⟩

/-- The C5 scenario state `Scrollback(6)` reached by the first `scroll_up`
on `scrC5`: `scroll_down` from here has candidate `11 ≥ max_start 11` and
transitions to Live with a tail redraw. -/
def scrC5w : Screen :=
  { width := 80, outputLine := 11, promptLine := 13,
    history := List.replicate 20 "line", scrollData := ⟨true, 6⟩ }

/-- Witness for C5 (amended): the Live-transition branch at `scrC5w`. -/
theorem c5_scroll_down_amended_witness :
    scrC5w.scroll_down.1
        = { scrC5w with scrollData := ⟨false, scrC5w.scrollData.start⟩ } ∧
    scrC5w.scroll_down.2
        = windowEvents scrC5w.history
            (scrC5w.history.length - scrC5w.visibleRows) scrC5w.visibleRows :=
  (c5_scroll_down_amended (by decide) (by decide) (by decide)).1 (by decide)

/-! ### Claim C7 -/

/-- C7: starting in Live with `len(history) > visible_rows`, some number of
`scroll_up` calls reaches `window_start = 0` (history unchanged), after
which some number of `scroll_down` calls transitions back to Live, and the
final redraw reproduces the original tail window exactly: its write calls
are the last `visible_rows` lines of the history, in order. -/
theorem c7_round_trip {scr : Screen}
    (hl : scr.scrollData.active = false)
    (hlen : scr.visibleRows < scr.history.length)
    (hcap : scr.history.length < 2 ^ 64) :
    ∃ k m,
      (Screen.upS^[k] scr).scrollData = ⟨true, 0⟩ ∧
      (Screen.upS^[k] scr).history = scr.history ∧
      (Screen.downS^[m] (Screen.upS^[k] scr)).scroll_down.1.scrollData.active
          = false ∧
      (Screen.downS^[m] (Screen.upS^[k] scr)).scroll_down.1.history
          = scr.history ∧
      writesOf ((Screen.downS^[m] (Screen.upS^[k] scr)).scroll_down.2)
          = scr.history.drop (scr.history.length - scr.visibleRows) := by
  have hr : scr.scrollRange < scr.history.length := by
    simp only [Screen.visibleRows, Screen.scrollRange] at *
    omega
  have hstep : Screen.upS scr
      = { scr with scrollData := ⟨true,
          scr.history.length - scr.scrollRange
            - min (scr.history.length - scr.scrollRange) 5⟩ } := by
    rw [Screen.upS, scroll_up_from_live hl hr]
  obtain ⟨k, hk⟩ := up_iterate_to_zero
    (scr.history.length - scr.scrollRange
      - min (scr.history.length - scr.scrollRange) 5)
    { scr with scrollData := ⟨true,
        scr.history.length - scr.scrollRange
          - min (scr.history.length - scr.scrollRange) 5⟩ }
    rfl hr
  have hup : Screen.upS^[k + 1] scr = { scr with scrollData := ⟨true, 0⟩ } := by
    rw [Function.iterate_succ_apply, hstep, hk]
  obtain ⟨m, hm1, hm2, hm3⟩ := down_iterate_to_live
    (scr.history.length - scr.scrollRange)
    { scr with scrollData := ⟨true, 0⟩ } rfl hr hcap rfl
  refine ⟨k + 1, m, ?_, ?_, ?_, ?_, ?_⟩
  · rw [hup]
  · rw [hup]
  · rw [hup]
    exact hm1
  · rw [hup]
    exact hm2
  · rw [hup, hm3]
    exact writesOf_tail_window scr.history scr.visibleRows (by omega)

/-- Concrete Live screen for the C7 witness: `visible_rows = 3`, four lines
of history. -/
def scrC7 : Screen :=
  { width := 80, outputLine := 4, promptLine := 6,
    history := ["a", "b", "c", "d"], scrollData := ⟨false, 0⟩ }

/-- Witness for C7 at `scrC7`. -/
theorem c7_round_trip_witness :
    ∃ k m,
      (Screen.upS^[k] scrC7).scrollData = ⟨true, 0⟩ ∧
      (Screen.upS^[k] scrC7).history = scrC7.history ∧
      (Screen.downS^[m] (Screen.upS^[k] scrC7)).scroll_down.1.scrollData.active
          = false ∧
      (Screen.downS^[m] (Screen.upS^[k] scrC7)).scroll_down.1.history
          = scrC7.history ∧
      writesOf ((Screen.downS^[m] (Screen.upS^[k] scrC7)).scroll_down.2)
          = scrC7.history.drop (scrC7.history.length - scrC7.visibleRows) :=
  c7_round_trip (by decide) (by decide) (by decide)

/-! ### Claim C8 -/

lemma history_update_history (scr : Screen) (h : List String) :
    ({ scr with history := h } : Screen).history = h := rfl

lemma print_line_scrollback {scr : Screen} (ha : scr.scrollData.active = true)
    (l : String) :
    scr.print_line l
      = ({ scr with history := append_to_history scr.history l }, []) := by
  simp [Screen.print_line, ha]

lemma print_prompt_scrollback {scr : Screen}
    (ha : scr.scrollData.active = true) (p : String) :
    scr.print_prompt p
      = ({ scr with history := append_to_history scr.history p }, []) := by
  simp [Screen.print_prompt, ha]

lemma foldl_print_line_scrollback :
    ∀ (pieces : List String) (scr : Screen) (evs : List RenderEvent),
      scr.scrollData.active = true →
      pieces.foldl (fun acc l => let r := acc.1.print_line l; (r.1, acc.2 ++ r.2))
          (scr, evs)
        = (pieces.foldl (fun s l => (s.print_line l).1) scr, evs) := by
  intro pieces
  induction pieces with
  | nil => intro scr evs ha; rfl
  | cons p ps ih =>
      intro scr evs ha
      simp only [List.foldl_cons, print_line_scrollback ha, List.append_nil]
      exact ih _ evs ha

/-- C8 (amended): appending while the controller is in Scrollback emits zero
render events — for `print_prompt` and for `print_output` with any wrap
function — leaves the scroll state unchanged, and updates the history
through `append_to_history`; as long as the result stays below capacity, the
history length grows by exactly the number of `"\r\n"`-fragments of the
line (at capacity the eviction policy caps the length instead, see C1). -/
theorem c8_append_in_scrollback_amended {scr : Screen}
    (wrap : Nat → String → List String) (line : String)
    (ha : scr.scrollData.active = true) :
    (scr.print_output wrap line).2 = [] ∧
    (scr.print_prompt line).2 = [] ∧
    (scr.print_prompt line).1.scrollData = scr.scrollData ∧
    (scr.print_prompt line).1.history = append_to_history scr.history line ∧
    (scr.history.length + (splitLines line).length ≤ CAPACITY - 1 →
      (scr.print_prompt line).1.history.length
        = scr.history.length + (splitLines line).length) := by
  refine ⟨?_, ?_, ?_, ?_, ?_⟩
  · rw [Screen.print_output]
    split
    · rw [print_line_scrollback ha]
    · rw [foldl_print_line_scrollback _ _ _ ha]
  · rw [print_prompt_scrollback ha]
  · rw [print_prompt_scrollback ha]
  · rw [print_prompt_scrollback ha]
  · intro hcap
    rw [print_prompt_scrollback ha]
    show (append_to_history scr.history line).length = _
    rw [append_to_history_length]
    omega

/-- Concrete scrollback screen (at capacity) for the C8 counterexample. -/
def scrC8 : Screen :=
  { width := 80, outputLine := 12, promptLine := 14,
    history := List.replicate (CAPACITY - 1) "h", scrollData := ⟨true, 0⟩ }

/-- C8 counterexample: at capacity (history length 1023 = C − 1, the maximal
reachable length), appending one line while in Scrollback does NOT grow the
history length by the number of fragments (1): the eviction loop pops the
just-pushed entry and the length stays 1023. -/
theorem c8_counterexample :
    scrC8.scrollData.active = true ∧
    (splitLines "x").length = 1 ∧
    scrC8.history.length = CAPACITY - 1 ∧
    (scrC8.print_prompt "x").1.history.length = CAPACITY - 1 ∧
    (scrC8.print_prompt "x").1.history.length
      ≠ scrC8.history.length + (splitLines "x").length := by
  have h3 : scrC8.history.length = CAPACITY - 1 := by
    show (List.replicate (CAPACITY - 1) "h").length = CAPACITY - 1
    rw [List.length_replicate]
  have h4 : (scrC8.print_prompt "x").1.history.length = CAPACITY - 1 := by
    rw [print_prompt_fst, history_update_history]
    rw [append_to_history_length, h3]
    have hs : (splitLines "x").length = 1 := rfl
    rw [hs]
    norm_num [CAPACITY]
  refine ⟨rfl, rfl, h3, h4, ?_⟩
  rw [h4, h3]
  have hs : (splitLines "x").length = 1 := rfl
  rw [hs]
  norm_num [CAPACITY]

/-- Concrete scrollback screen for the C8 witness (well below capacity). -/
def scrC8w : Screen :=
  { width := 80, outputLine := 12, promptLine := 14,
    history := ["a"], scrollData := ⟨true, 0⟩ }

/-- Witness for C8 (amended) at `scrC8w`. -/
theorem c8_append_in_scrollback_amended_witness :
    (scrC8w.print_output (fun _ s => [s]) "hello").2 = [] ∧
    (scrC8w.print_prompt "hello").2 = [] ∧
    (scrC8w.print_prompt "hello").1.scrollData = scrC8w.scrollData ∧
    (scrC8w.print_prompt "hello").1.history
        = append_to_history scrC8w.history "hello" ∧
    (scrC8w.print_prompt "hello").1.history.length
        = scrC8w.history.length + (splitLines "hello").length := by
  have h := @c8_append_in_scrollback_amended scrC8w
    (fun _ s => [s]) "hello" (by decide)
  exact ⟨h.1, h.2.1, h.2.2.1, h.2.2.2.1, h.2.2.2.2 (by decide)⟩

/-! ### Claim C9 -/

lemma truncGo_eq_drop :
    ∀ (fuel w : Nat) (cs : List Char), 0 < w → cs.length ≤ fuel →
      truncGo w cs fuel = cs.drop (cs.length - cs.length % w) := by
  intro fuel
  induction fuel with
  | zero =>
      intro w cs hw hlen
      have hnil : cs = [] := List.eq_nil_of_length_eq_zero (by omega)
      subst hnil
      simp [truncGo]
  | succ fuel ih =>
      intro w cs hw hlen
      rw [truncGo]
      by_cases h : w ≤ cs.length
      · rw [if_pos ⟨hw, h⟩]
        rw [ih w (cs.drop w) hw (by rw [List.length_drop]; omega)]
        rw [List.drop_drop]
        congr 1
        rw [List.length_drop]
        have hmod : (cs.length - w) % w = cs.length % w := by
          conv_rhs => rw [← Nat.sub_add_cancel h]
          rw [Nat.add_mod_right]
        rw [hmod]
        have hmlt : cs.length % w < w := Nat.mod_lt cs.length hw
        have hmle : (cs.length - w) % w ≤ cs.length - w := Nat.mod_le _ _
        rw [hmod] at hmle
        omega
      · rw [if_neg (fun hcon => h hcon.2)]
        have hmod : cs.length % w = cs.length := Nat.mod_eq_of_lt (by omega)
        rw [hmod]
        simp

/-- C9 (amended): `prompt_input` never persists its argument to history (the
state is untouched) and repeatedly drops the first `width` characters while
the length is at least `width`, so the text written at the prompt row is the
last `len mod width` characters of the input — not the last `width`
characters; in particular an input of 50 characters with `width = 20`
renders exactly the last 10 characters. -/
theorem c9_prompt_input_amended {scr : Screen} (input : String)
    (hw : 0 < scr.width) :
    (scr.print_prompt_input input).1 = scr ∧
    (scr.print_prompt_input input).2
      = [RenderEvent.goto 1 scr.promptLine, RenderEvent.clearLine,
         RenderEvent.write (truncate_input scr.width input)] ∧
    (truncate_input scr.width input).data
      = input.data.drop (input.data.length - input.data.length % scr.width) := by
  refine ⟨rfl, rfl, ?_⟩
  show truncGo scr.width input.data input.data.length
      = input.data.drop (input.data.length - input.data.length % scr.width)
  exact truncGo_eq_drop input.data.length scr.width input.data hw le_rfl

/-- Concrete screen with `width = 20` for claim C9. -/
def scrC9 : Screen :=
  { width := 20, outputLine := 12, promptLine := 14,
    history := [], scrollData := ⟨false, 0⟩ }

/-- A 50-character input for claim C9. -/
def fiftyChars : String := "01234567890123456789012345678901234567890123456789"

/-- C9 counterexample: for the 50-character input with `width = 20`, the
text actually written at the prompt row is `"0123456789"` — the last 10
characters (50 mod 20), because the loop drops 20-character prefixes while
at least 20 characters remain — and not the claimed last 20 characters
`"01234567890123456789"`. The state (history included) is untouched. -/
theorem c9_counterexample :
    fiftyChars.data.length = 50 ∧
    scrC9.width = 20 ∧
    (scrC9.print_prompt_input fiftyChars).1 = scrC9 ∧
    (scrC9.print_prompt_input fiftyChars).2
      = [RenderEvent.goto 1 scrC9.promptLine, RenderEvent.clearLine,
         RenderEvent.write "0123456789"] ∧
    String.mk (fiftyChars.data.drop 30) = "01234567890123456789" ∧
    truncate_input scrC9.width fiftyChars ≠ String.mk (fiftyChars.data.drop 30) := by
  decide

/-- Witness for C9 (amended) at `scrC9` and the 50-character input. -/
theorem c9_prompt_input_amended_witness :
    (scrC9.print_prompt_input fiftyChars).1 = scrC9 ∧
    (scrC9.print_prompt_input fiftyChars).2
      = [RenderEvent.goto 1 scrC9.promptLine, RenderEvent.clearLine,
         RenderEvent.write (truncate_input scrC9.width fiftyChars)] ∧
    (truncate_input scrC9.width fiftyChars).data
      = fiftyChars.data.drop
          (fiftyChars.data.length - fiftyChars.data.length % scrC9.width) :=
  c9_prompt_input_amended fiftyChars (by decide)
